import Mathlib

/-!
Shallow embedding of the pearll reinforcement-learning core: the agent
training loop (`BaseAgent.step_env`, `BaseAgent.fit`, `BaseAgent.load`) and
the critic updater family (`BaseCriticUpdater`, `ValueRegression`,
`ContinuousQRegression`, `DiscreteQRegression`).

Scalars (observations, actions, rewards, losses, gradients) are modelled as
rationals; parameter identities as naturals; buffers as lists of transitions
appended at the end.  Each definition transcribes one function of the source.
-/

namespace Pearll

/-- One experience transition, as appended by `buffer.add_trajectory` in
`BaseAgent.step_env`. -/
structure Transition where
  observation : ℚ
  action : ℚ
  reward : ℚ
  next_observation : ℚ
  done : Bool
deriving Repr, DecidableEq

/-- The environment collaborator.  In the source, `BaseAgent.step_env` calls
`self.env.step()` with no argument and unpacks
`reward, next_observation, done, _`; the transition function therefore
depends only on the environment state (identified here with the current
observation), never on the chosen action.  `resetObs` is what `env.reset()`
returns. -/
structure EnvModel where
  resetObs : ℚ
  stepFn : ℚ → ℚ × ℚ × Bool

/-- The per-iteration log record (`Log` of the source), restricted to the
fields the training loop itself touches. -/
structure Log where
  reward : ℚ
  actor_loss : ℚ
  critic_loss : ℚ
deriving Repr, DecidableEq

/-- The state an agent carries through `fit`, as set up by
`BaseAgent.__init__`: the environment, the optional exploration strategy
(`action_explorer`), the model forward pass, the buffer capacity
(`buffer_size`, also used for the on-policy conversion of `num_steps`),
whether the buffer is a `RolloutBuffer`, and the abstract `_fit` of the
concrete agent, which reads the buffer and returns a `Log`. -/
structure Agent where
  env : EnvModel
  action_explorer : Option (ℚ → ℚ)
  modelForward : ℚ → ℚ
  buffer_size : ℕ
  isRolloutBuffer : Bool
  fitFn : List Transition → Log

/-- Action choice in `step_env`: the exploration strategy when configured,
else the model forward pass. -/
def chooseAction (a : Agent) (observation : ℚ) : ℚ :=
  match a.action_explorer with
  | some explore => explore observation
  | none => a.modelForward observation

/-- One pass of the loop body of `BaseAgent.step_env`: choose an action,
call `env.step()` (no action argument in the source), append the transition,
then reset on `done` else advance to `next_observation`.  Returns the next
observation and the grown buffer. -/
def stepEnvOnce (a : Agent) (observation : ℚ) (buf : List Transition) :
    ℚ × List Transition :=
  let action := chooseAction a observation
  let r := a.env.stepFn observation
  let buf' := buf ++ [⟨observation, action, r.1, r.2.1, r.2.2⟩]
  (if r.2.2 then a.env.resetObs else r.2.1, buf')

/-- `BaseAgent.step_env(observation, num_steps)`: iterate the loop body
`num_steps` times. -/
def step_env (a : Agent) (observation : ℚ) (num_steps : ℕ)
    (buf : List Transition) : ℚ × List Transition :=
  match num_steps with
  | 0 => (observation, buf)
  | Nat.succ n =>
    let p := stepEnvOnce a observation buf
    step_env a p.1 n p.2

/-- `buffer.last(batch_size)`: the most recent `n` entries of the buffer. -/
def lastN (n : ℕ) (xs : List Transition) : List Transition :=
  xs.drop (xs.length - n)

/-- `np.mean` over a list of rationals (the empty list yields `0`, as
division by zero does in `ℚ`). -/
def meanQ (xs : List ℚ) : ℚ :=
  xs.sum / xs.length

/-- How many environment transitions iteration `step` of `BaseAgent.fit`
collects before fitting: `batch_size` on the first iteration, a full
a full buffer of transitions for a rollout buffer, else a single step. -/
def collectCount (a : Agent) (batchSize step : ℕ) : ℕ :=
  if step = 0 then batchSize
  else if a.isRolloutBuffer then a.buffer_size
  else 1

/-- What one iteration of `BaseAgent.fit` leaves behind: the iteration
index, the number of transitions appended during its collection phase
(measured as buffer growth), the buffer right after collection, and the log
written to the metrics sink. -/
structure IterRecord where
  step : ℕ
  collected : ℕ
  bufferAfter : List Transition
  writtenLog : Log
deriving Repr, DecidableEq

/-- The iteration loop of `BaseAgent.fit`, returning the written records and
the final buffer.  Each iteration collects `collectCount` transitions via
`step_env`, invokes the abstract `_fit`, overwrites `log.reward` with the
mean reward of the most recent `batch_size` buffer entries, and writes the
log. -/
def fitLoop (a : Agent) (batchSize : ℕ) :
    ℕ → ℕ → ℚ → List Transition → List IterRecord × List Transition
  | 0, _, _, buf => ([], buf)
  | Nat.succ n, step, observation, buf =>
    let p := step_env a observation (collectCount a batchSize step) buf
    let rawLog := a.fitFn p.2
    let log : Log :=
      { rawLog with reward := meanQ ((lastN batchSize p.2).map Transition.reward) }
    let rest := fitLoop a batchSize n (step + 1) p.1 p.2
    (⟨step, p.2.length - buf.length, p.2, log⟩ :: rest.1, rest.2)

/-- The iteration count of `BaseAgent.fit`: for a `RolloutBuffer`,
`num_steps` is first converted by integer division by `buffer_size`. -/
def fitIterations (a : Agent) (num_steps : ℕ) : ℕ :=
  if a.isRolloutBuffer then num_steps / a.buffer_size else num_steps

/-- `BaseAgent.fit(num_steps, batch_size)` on an initial buffer `buf`:
reset the environment once, then run the iteration loop.  Returns the
written iteration records and the final buffer. -/
def fit (a : Agent) (num_steps batchSize : ℕ) (buf : List Transition) :
    List IterRecord × List Transition :=
  fitLoop a batchSize (fitIterations a num_steps) 0 a.env.resetObs buf

/-! ### Critic updaters (`anvilrl/updaters/critics.py`) -/

/-- A single critic network, identified by its parameter set (parameter
identities as natural numbers). -/
structure Critic where
  params : List ℕ
deriving Repr, DecidableEq

/-- An actor-critic exposing several critics (`model.critics`) next to its
actor parameters. -/
structure ActorCritic where
  actorParams : List ℕ
  critics : List Critic
deriving Repr, DecidableEq

/-- The `Union[Critic, ActorCritic]` argument of the updaters, as the
`isinstance(model, Critic)` dispatch sees it. -/
inductive CriticModel where
  | single (c : Critic)
  | actorCritic (ac : ActorCritic)
deriving Repr, DecidableEq

/-- `BaseCriticUpdater._get_model_parameters`: a single `Critic` yields its
own parameters; otherwise the parameters of every entry of `model.critics`
are collected in order (`params.extend(critic.parameters())`). -/
def get_model_parameters : CriticModel → List ℕ
  | CriticModel.single c => c.params
  | CriticModel.actorCritic ac => (ac.critics.map Critic.params).flatten

/-- The differentiable state `run_optimizer` acts on: the accumulated
gradient and the parameter value (collapsed to one rational each). -/
structure GradState where
  grad : ℚ
  param : ℚ
deriving Repr, DecidableEq

/-- `optimizer.zero_grad()`: reset the accumulated gradient. -/
def zero_grad (s : GradState) : GradState :=
  { s with grad := 0 }

/-- `loss.backward()`: ACCUMULATE the gradient of the loss onto whatever
gradient is already stored (torch semantics). -/
def backward (lossGrad : ℚ) (s : GradState) : GradState :=
  { s with grad := s.grad + lossGrad }

/-- `torch.nn.utils.clip_grad_norm_(parameters, max_grad)`: rescale the
gradient so its norm does not exceed `max_grad` (no-op when it already
does not). -/
def clip_grad_norm (max_grad : ℚ) (s : GradState) : GradState :=
  if max_grad < |s.grad| then { s with grad := max_grad * s.grad / |s.grad| } else s

/-- `optimizer.step()`: one gradient-descent move of the parameter. -/
def optimizer_step (lr : ℚ) (s : GradState) : GradState :=
  { s with param := s.param - lr * s.grad }

/-- The four operations `run_optimizer` can issue, in trace form. -/
inductive OptOp where
  | zero
  | backwardOp
  | clip
  | stepOp
deriving Repr, DecidableEq

/-- `BaseCriticUpdater.run_optimizer(optimizer, loss, critic_parameters)`:
zero the gradients, backpropagate, clip only when `max_grad > 0`, then take
one optimizer step.  Returns the final state together with the exact trace
of operations issued. -/
def run_optimizer (max_grad lr lossGrad : ℚ) (s : GradState) :
    GradState × List OptOp :=
  let s1 := zero_grad s
  let s2 := backward lossGrad s1
  let clipped := if 0 < max_grad then (clip_grad_norm max_grad s2, [OptOp.clip])
    else (s2, [])
  let s4 := optimizer_step lr clipped.1
  (s4, [OptOp.zero, OptOp.backwardOp] ++ clipped.2 ++ [OptOp.stepOp])

/-- The value the accumulated gradient holds right before `optimizer.step()`
in `run_optimizer`: the loss gradient, clipped only when `0 < max_grad`. -/
def clipValue (max_grad g : ℚ) : ℚ :=
  if 0 < max_grad ∧ max_grad < |g| then max_grad * g / |g| else g

/-- The configuration a critic updater stores at construction
(`BaseCriticUpdater.__init__` plus the subclass fields `loss_class` and
`loss_coeff`); nothing else is ever assigned to `self`. -/
structure UpdaterState where
  optimizer_class : ℕ
  lr : ℚ
  max_grad : ℚ
  loss_class : List ℚ → List ℚ → ℚ
  loss_coeff : ℚ

/-- The configuration error the spec asks construction to raise; the source
never raises it. -/
inductive ConfigError where
  | invalidConfig
deriving Repr, DecidableEq

/-- The constructor of a concrete critic updater
(`ValueRegression.__init__` etc., through `BaseCriticUpdater.__init__`):
the arguments are stored verbatim and no validation is performed, so the
result is always `ok`. -/
def criticUpdaterInit (optimizer_class : ℕ) (lr max_grad : ℚ)
    (loss_class : List ℚ → List ℚ → ℚ) (loss_coeff : ℚ) :
    Except ConfigError UpdaterState :=
  Except.ok ⟨optimizer_class, lr, max_grad, loss_class, loss_coeff⟩

/-- An optimizer instance: `optimizer = self.optimizer_class(critic_parameters,
lr=self.lr)`.  `momentum` stands for the internal optimizer state, `0` on a
fresh instance. -/
structure Optimizer where
  optimizer_class : ℕ
  lr : ℚ
  params : List ℕ
  momentum : ℚ
deriving Repr, DecidableEq

/-- Construct a fresh optimizer over the given parameters. -/
def mkOptimizer (optimizer_class : ℕ) (lr : ℚ) (params : List ℕ) : Optimizer :=
  ⟨optimizer_class, lr, params, 0⟩

/-- `UpdaterLog` of the source: the scalar loss an updater call returns. -/
structure UpdaterLog where
  loss : ℚ
deriving Repr, DecidableEq

/-- Everything one updater `__call__` produces or touches: the returned log,
the updater state after the call, and the optimizer instance used. -/
structure CallResult where
  log : UpdaterLog
  updaterAfter : UpdaterState
  optimizerUsed : Optimizer

/-- Mean squared error, the default `loss_class` (`torch.nn.MSELoss`). -/
def mseLoss (xs ys : List ℚ) : ℚ :=
  meanQ ((xs.zip ys).map fun p => (p.1 - p.2) ^ 2)

/-- The model argument of `ValueRegression.__call__`: its critic structure
(for parameter selection) and the two forward paths the `isinstance`
dispatch chooses between. -/
structure VModel where
  asCritic : CriticModel
  forward : List ℚ → List ℚ
  forward_critics : List ℚ → List ℚ

/-- The value estimates `ValueRegression.__call__` regresses:
`model(observations)` for a single critic, else
`model.forward_critics(observations)`. -/
def VModel.values (m : VModel) (observations : List ℚ) : List ℚ :=
  match m.asCritic with
  | CriticModel.single _ => m.forward observations
  | CriticModel.actorCritic _ => m.forward_critics observations

/-- `ValueRegression.__call__(model, observations, returns)`. -/
def valueRegressionCall (u : UpdaterState) (m : VModel)
    (observations returns : List ℚ) : CallResult :=
  let critic_parameters := get_model_parameters m.asCritic
  let optimizer := mkOptimizer u.optimizer_class u.lr critic_parameters
  let values := m.values observations
  let loss := u.loss_coeff * u.loss_class values returns
  { log := ⟨loss⟩, updaterAfter := u, optimizerUsed := optimizer }

/-- The model argument of `ContinuousQRegression.__call__`. -/
structure CQModel where
  asCritic : CriticModel
  forward : List ℚ → List ℚ → List ℚ
  forward_critics : List ℚ → List ℚ → List ℚ

/-- The Q estimates of `ContinuousQRegression.__call__`:
`model(observations, actions)` or
`model.forward_critics(observations, actions)`. -/
def CQModel.qValues (m : CQModel) (observations actions : List ℚ) : List ℚ :=
  match m.asCritic with
  | CriticModel.single _ => m.forward observations actions
  | CriticModel.actorCritic _ => m.forward_critics observations actions

/-- `ContinuousQRegression.__call__(model, observations, actions, returns)`. -/
def continuousQRegressionCall (u : UpdaterState) (m : CQModel)
    (observations actions returns : List ℚ) : CallResult :=
  let critic_parameters := get_model_parameters m.asCritic
  let optimizer := mkOptimizer u.optimizer_class u.lr critic_parameters
  let q_values := m.qValues observations actions
  let loss := u.loss_coeff * u.loss_class q_values returns
  { log := ⟨loss⟩, updaterAfter := u, optimizerUsed := optimizer }

/-- `.long()` on a scalar: truncation toward zero of a rational to an
integer. -/
def toLong (q : ℚ) : ℤ :=
  if q < 0 then -⌊-q⌋ else ⌊q⌋

/-- `torch.gather(q_values, dim=-1, index)` for per-sample indices: row `i`
of the result is `q_values[i][index[i]]`. -/
def gatherLastDim (q_values : List (List ℚ)) (index : List ℤ) : List ℚ :=
  (q_values.zip index).map fun p => p.1.getD p.2.toNat 0

/-- The gather of `DiscreteQRegression.__call__`: the action indices are
cast to integers (`actions_index.long()`) BEFORE the gather along the last
dimension. -/
def discreteQGathered (q_values : List (List ℚ)) (actions_index : List ℚ) :
    List ℚ :=
  gatherLastDim q_values (actions_index.map toLong)

/-- The model argument of `DiscreteQRegression.__call__`: the forward paths
produce one row of per-action Q-values per sample. -/
structure DQModel where
  asCritic : CriticModel
  forward : List ℚ → List (List ℚ)
  forward_critics : List ℚ → List (List ℚ)

/-- The per-action Q rows of `DiscreteQRegression.__call__`:
`model(observations)` or `model.forward_critics(observations)`. -/
def DQModel.qValues (m : DQModel) (observations : List ℚ) : List (List ℚ) :=
  match m.asCritic with
  | CriticModel.single _ => m.forward observations
  | CriticModel.actorCritic _ => m.forward_critics observations

/-- `DiscreteQRegression.__call__(model, observations, returns,
actions_index)`. -/
def discreteQRegressionCall (u : UpdaterState) (m : DQModel)
    (observations returns actions_index : List ℚ) : CallResult :=
  let critic_parameters := get_model_parameters m.asCritic
  let optimizer := mkOptimizer u.optimizer_class u.lr critic_parameters
  let q_values := m.qValues observations
  let gathered := discreteQGathered q_values actions_index
  let loss := u.loss_coeff * u.loss_class gathered returns
  { log := ⟨loss⟩, updaterAfter := u, optimizerUsed := optimizer }

/-! ### Checkpoint loading (`BaseAgent.load`) -/

/-- A serialized model state (`state_dict`), abstracted to its weights. -/
abbrev StateDict := List ℚ

/-- What reading a checkpoint file can do: succeed, fail because the file is
missing (`FileNotFoundError`), or fail otherwise. -/
inductive FsError where
  | fileNotFound
  | other
deriving Repr, DecidableEq

/-- The outcome of a `load` call that returned normally: the model weights
afterwards and the informational messages logged. -/
structure LoadOutcome where
  modelState : StateDict
  infoMessages : List String
deriving Repr, DecidableEq

/-- `BaseAgent.load(path)`: append the fixed suffix, log an informational
message when verbose, then try to read and apply the checkpoint.  A
`FileNotFoundError` is caught and logged (informational, verbose only); any
other error propagates. -/
def load (verbose : Bool) (fs : String → Except FsError StateDict)
    (path : String) (modelState : StateDict) : Except FsError LoadOutcome :=
  let fullPath := path ++ ".pt"
  let msgs := if verbose then ["Loading weights from " ++ fullPath] else []
  match fs fullPath with
  | Except.ok sd => Except.ok ⟨sd, msgs⟩
  | Except.error FsError.fileNotFound =>
    Except.ok ⟨modelState,
      msgs ++ (if verbose then
        ["File not found, assuming no model dict was to be loaded"] else [])⟩
  | Except.error FsError.other => Except.error FsError.other

/-! ### Concrete instances used by witnesses and counterexamples -/

/-- A concrete environment: constant reward `1`, the observation advances by
`1`, never done. -/
def envEx : EnvModel :=
  ⟨0, fun o => (1, o + 1, false)⟩

/-- A concrete off-policy agent whose exploration strategy always picks
action `0` while its model forward pass would pick `1`. -/
def agentExplore : Agent :=
  ⟨envEx, some fun _ => 0, fun _ => 1, 4, false, fun _ => ⟨42, 0, 0⟩⟩

/-- The same agent without an exploration strategy: actions come from the
model forward pass. -/
def agentGreedy : Agent :=
  { agentExplore with action_explorer := none }

/-- The same agent over a rollout (on-policy) buffer of capacity 4. -/
def agentOnEx : Agent :=
  { agentExplore with isRolloutBuffer := true }

/-- An environment with constant dynamics (reward `1`, next observation `0`,
never done), so that runs over it are decidably comparable. -/
def envConst : EnvModel :=
  ⟨0, fun _ => (1, 0, false)⟩

/-- An agent over the constant environment whose exploration strategy picks
action `0`. -/
def agentExploreC : Agent :=
  ⟨envConst, some fun _ => 0, fun _ => 1, 4, false, fun _ => ⟨42, 0, 0⟩⟩

/-- The same agent without an exploration strategy: its model forward pass
picks action `1`. -/
def agentGreedyC : Agent :=
  { agentExploreC with action_explorer := none }

/-! ### Helper lemmas on the training loop -/

theorem stepEnvOnce_buf_length (a : Agent) (observation : ℚ)
    (buf : List Transition) :
    ((stepEnvOnce a observation buf).2).length = buf.length + 1 := by
  simp [stepEnvOnce]

theorem step_env_buf_length (a : Agent) :
    ∀ (n : ℕ) (observation : ℚ) (buf : List Transition),
      ((step_env a observation n buf).2).length = buf.length + n := by
  intro n
  induction n with
  | zero => intro observation buf; rfl
  | succ m ih =>
    intro observation buf
    show ((step_env a (stepEnvOnce a observation buf).1 m
        (stepEnvOnce a observation buf).2).2).length = buf.length + (m + 1)
    rw [ih, stepEnvOnce_buf_length]
    omega

theorem fitLoop_records_length (a : Agent) (batchSize : ℕ) :
    ∀ (n s : ℕ) (observation : ℚ) (buf : List Transition),
      ((fitLoop a batchSize n s observation buf).1).length = n := by
  intro n
  induction n with
  | zero => intro s observation buf; rfl
  | succ m ih => intro s observation buf; simpa [fitLoop] using ih (s + 1) _ _

theorem fitLoop_collected_map (a : Agent) (batchSize : ℕ) :
    ∀ (n s : ℕ) (observation : ℚ) (buf : List Transition),
      (fitLoop a batchSize n s observation buf).1.map IterRecord.collected
        = (List.range n).map fun i => collectCount a batchSize (s + i) := by
  intro n
  induction n with
  | zero => intro s observation buf; rfl
  | succ m ih =>
    intro s observation buf
    rw [List.range_succ_eq_map]
    simp only [fitLoop, List.map_cons, List.map_map]
    refine List.cons_eq_cons.mpr ⟨?_, ?_⟩
    · rw [step_env_buf_length, Nat.add_zero]
      omega
    · rw [ih (s + 1)]
      apply List.map_congr_left
      intro i _
      simp only [Function.comp_apply]
      congr 1
      omega

theorem fitLoop_buf_length (a : Agent) (batchSize : ℕ) :
    ∀ (n s : ℕ) (observation : ℚ) (buf : List Transition),
      ((fitLoop a batchSize n s observation buf).2).length
        = buf.length
          + ((fitLoop a batchSize n s observation buf).1.map
              IterRecord.collected).sum := by
  intro n
  induction n with
  | zero => intro s observation buf; simp [fitLoop]
  | succ m ih =>
    intro s observation buf
    simp only [fitLoop, List.map_cons, List.sum_cons]
    rw [ih (s + 1), step_env_buf_length]
    omega

theorem fitLoop_reward_overwrite (a : Agent) (batchSize : ℕ) :
    ∀ (n s : ℕ) (observation : ℚ) (buf : List Transition) (r : IterRecord),
      r ∈ (fitLoop a batchSize n s observation buf).1 →
      r.writtenLog.reward
        = meanQ ((lastN batchSize r.bufferAfter).map Transition.reward) := by
  intro n
  induction n with
  | zero => intro s observation buf r hr; simp [fitLoop] at hr
  | succ m ih =>
    intro s observation buf r hr
    simp only [fitLoop, List.mem_cons] at hr
    rcases hr with hr | hr
    · subst hr; rfl
    · exact ih (s + 1) _ _ r hr

/-! ### Claim theorems -/

/-- C1: `step_env` chooses the action via the exploration strategy (else the
model forward pass) and appends it to the buffer, but `self.env.step()` is
called with NO argument, so the environment transition
`(reward, next_observation, done)` never depends on the chosen action.  Two
agents sharing the environment but choosing different actions record
identical `(reward, next_observation, done)` triples while the recorded
actions differ: the chosen action is not executed in the environment. -/
theorem step_env_ignores_chosen_action :
    ((step_env agentExploreC 0 2 []).2.map fun t =>
        (t.reward, t.next_observation, t.done))
      = ((step_env agentGreedyC 0 2 []).2.map fun t =>
        (t.reward, t.next_observation, t.done))
    ∧ (step_env agentExploreC 0 2 []).2.map Transition.action
        ≠ (step_env agentGreedyC 0 2 []).2.map Transition.action := by
  exact ⟨by decide, by decide⟩

/-- C2: with a rollout (on-policy) buffer of positive capacity `C =
buffer_size`, `fit(num_steps, batch_size)` runs exactly
`num_steps / C` fit iterations, and the per-iteration collection counts are
`batch_size` on the first iteration and exactly `C` on every other
iteration. -/
theorem fit_onpolicy_schedule (a : Agent) (num_steps batchSize : ℕ)
    (buf : List Transition) (hroll : a.isRolloutBuffer = true)
    (_hcap : 0 < a.buffer_size) :
    ((fit a num_steps batchSize buf).1).length = num_steps / a.buffer_size
    ∧ (fit a num_steps batchSize buf).1.map IterRecord.collected
        = (List.range (num_steps / a.buffer_size)).map
            fun i => if i = 0 then batchSize else a.buffer_size := by
  have hiter : fitIterations a num_steps = num_steps / a.buffer_size := by
    simp [fitIterations, hroll]
  constructor
  · rw [fit, hiter, fitLoop_records_length]
  · rw [fit, hiter, fitLoop_collected_map]
    apply List.map_congr_left
    intro i _
    simp [collectCount, hroll]

/-- Witness for C2 at `num_steps = 8`, `batch_size = 2`, capacity 4. -/
theorem fit_onpolicy_schedule_witness :
    ((fit agentOnEx 8 2 []).1).length = 8 / agentOnEx.buffer_size
    ∧ (fit agentOnEx 8 2 []).1.map IterRecord.collected
        = (List.range (8 / agentOnEx.buffer_size)).map
            fun i => if i = 0 then 2 else agentOnEx.buffer_size :=
  fit_onpolicy_schedule agentOnEx 8 2 [] rfl (by decide)

/-- C3: with an off-policy (non-rollout) buffer and `num_steps ≥ 1` (the
claim speaks of a first iteration, so at least one iteration runs), the
first iteration collects exactly `batch_size` transitions, every subsequent
iteration exactly `1`, and the run appends exactly
`batch_size + (num_steps - 1)` transitions in total. -/
theorem fit_offpolicy_schedule (a : Agent) (num_steps batchSize : ℕ)
    (buf : List Transition) (hoff : a.isRolloutBuffer = false)
    (hpos : 1 ≤ num_steps) :
    (fit a num_steps batchSize buf).1.map IterRecord.collected
        = batchSize :: List.replicate (num_steps - 1) 1
    ∧ ((fit a num_steps batchSize buf).2).length
        = buf.length + batchSize + (num_steps - 1) := by
  have hiter : fitIterations a num_steps = num_steps := by
    simp [fitIterations, hoff]
  obtain ⟨m, rfl⟩ : ∃ m, num_steps = m + 1 :=
    ⟨num_steps - 1, by omega⟩
  have hmap : (fit a (m + 1) batchSize buf).1.map IterRecord.collected
      = batchSize :: List.replicate m 1 := by
    rw [fit, hiter, fitLoop_collected_map, List.range_succ_eq_map]
    simp only [List.map_cons, List.map_map, Nat.add_zero]
    refine List.cons_eq_cons.mpr ⟨by simp [collectCount], ?_⟩
    rw [List.eq_replicate_iff]
    refine ⟨by simp, ?_⟩
    intro b hb
    simp only [List.mem_map, Function.comp_apply] at hb
    obtain ⟨i, _, hib⟩ := hb
    simpa [collectCount, hoff] using hib.symm
  refine ⟨by simpa using hmap, ?_⟩
  rw [fit, hiter, fitLoop_buf_length]
  rw [fit, hiter] at hmap
  rw [hmap]
  simp [List.sum_replicate]
  omega

/-- Witness for C3 from the spec scenario: capacity 4, `num_steps = 4`,
`batch_size = 2`, so `2 + (4 - 1) = 5` transitions are appended. -/
theorem fit_offpolicy_schedule_witness :
    (fit agentExplore 4 2 []).1.map IterRecord.collected
        = 2 :: List.replicate (4 - 1) 1
    ∧ ((fit agentExplore 4 2 []).2).length
        = (List.nil : List Transition).length + 2 + (4 - 1) :=
  fit_offpolicy_schedule agentExplore 4 2 [] rfl (by norm_num)

/-- C7: every log record written by `fit` carries, as its reward, the
arithmetic mean of the reward field over the most recent `batch_size`
buffer entries at that iteration — whatever the (arbitrary) `_fit` of the
agent computed is overwritten before the write. -/
theorem fit_reward_overwrite (a : Agent) (num_steps batchSize : ℕ)
    (buf : List Transition) (r : IterRecord)
    (hr : r ∈ (fit a num_steps batchSize buf).1) :
    r.writtenLog.reward
      = meanQ ((lastN batchSize r.bufferAfter).map Transition.reward) :=
  fitLoop_reward_overwrite a batchSize (fitIterations a num_steps) 0
    a.env.resetObs buf r hr

/-- The first record written by a two-iteration run of `fit` on the example
agent, with `_fit` reporting reward `42`. -/
def c7record : IterRecord :=
  (fit agentExplore 2 1 []).1.getD 0 ⟨0, 0, [], ⟨0, 0, 0⟩⟩

/-- Witness for C7: the concrete record has the mean of the last buffer
reward, not the `42` that `_fit` reported. -/
theorem fit_reward_overwrite_witness :
    c7record.writtenLog.reward
      = meanQ ((lastN 1 c7record.bufferAfter).map Transition.reward) := by
  have hlen : ((fit agentExplore 2 1 []).1).length = 2 := by
    rw [fit, fitLoop_records_length]
    rfl
  have h2 : 0 < ((fit agentExplore 2 1 []).1).length := by
    rw [hlen]; norm_num
  have hmem : c7record ∈ (fit agentExplore 2 1 []).1 := by
    unfold c7record
    rw [List.getD_eq_getElem _ _ h2]
    exact List.getElem_mem h2
  exact fit_reward_overwrite agentExplore 2 1 [] c7record hmem

/-- C4: `run_optimizer` issues exactly the trace zero-grad, backward,
optional clip (only when `max_grad > 0`), one optimizer step — and its final
state is a function of the loss gradient alone, never of the previously
accumulated gradient, so two consecutive calls with the same inputs end
with the same gradient (no double accumulation); with `max_grad = 0` the
gradient is left unclipped and no clip operation is issued. -/
theorem run_optimizer_order_and_fresh_grads (max_grad lr lossGrad : ℚ)
    (s : GradState) :
    (run_optimizer max_grad lr lossGrad s).2
      = [OptOp.zero, OptOp.backwardOp]
          ++ (if 0 < max_grad then [OptOp.clip] else []) ++ [OptOp.stepOp]
    ∧ (run_optimizer max_grad lr lossGrad s).1
      = ⟨clipValue max_grad lossGrad,
          s.param - lr * clipValue max_grad lossGrad⟩
    ∧ (run_optimizer max_grad lr lossGrad
          ((run_optimizer max_grad lr lossGrad s).1)).1.grad
      = (run_optimizer max_grad lr lossGrad s).1.grad
    ∧ (run_optimizer 0 lr lossGrad s).1.grad = lossGrad
    ∧ OptOp.clip ∉ (run_optimizer 0 lr lossGrad s).2 := by
  have hstate : ∀ (mg : ℚ) (t : GradState), (run_optimizer mg lr lossGrad t).1
      = ⟨clipValue mg lossGrad, t.param - lr * clipValue mg lossGrad⟩ := by
    intro mg t
    by_cases h1 : 0 < mg
    · by_cases h2 : mg < |lossGrad|
      · simp [run_optimizer, zero_grad, backward, clip_grad_norm,
          optimizer_step, clipValue, h1, h2]
      · simp [run_optimizer, zero_grad, backward, clip_grad_norm,
          optimizer_step, clipValue, h1, h2]
    · simp [run_optimizer, zero_grad, backward, clip_grad_norm,
        optimizer_step, clipValue, h1]
  refine ⟨?_, hstate max_grad s, ?_, ?_, ?_⟩
  · simp only [run_optimizer]
    split_ifs <;> rfl
  · rw [hstate, hstate]
  · rw [hstate]
    simp [clipValue]
  · simp [run_optimizer]

/-- C5: `_get_model_parameters` returns the own parameter set of a single critic
directly, and for an actor-critic with several critics the concatenation of
the parameters of all sub-critics: a parameter is returned exactly when it belongs
to some sub-critic — never a partial or mixed set. -/
theorem get_model_parameters_spec (c : Critic) (ac : ActorCritic) :
    get_model_parameters (CriticModel.single c) = c.params
    ∧ get_model_parameters (CriticModel.actorCritic ac)
        = (ac.critics.map Critic.params).flatten
    ∧ ∀ p : ℕ, (p ∈ get_model_parameters (CriticModel.actorCritic ac)
        ↔ ∃ cr ∈ ac.critics, p ∈ cr.params) := by
  refine ⟨rfl, rfl, ?_⟩
  intro p
  simp [get_model_parameters, List.mem_flatten]

theorem toLong_natCast (n : ℕ) : toLong (n : ℚ) = (n : ℤ) := by
  rw [toLong, if_neg (not_lt.mpr (by positivity)), Int.floor_natCast]

theorem gatherLastDim_natIdx (q : List (List ℚ)) (nIdx : List ℕ)
    (hlen : q.length = nIdx.length) :
    gatherLastDim q (nIdx.map fun n : ℕ => (n : ℤ))
      = (List.range nIdx.length).map
          (fun i => (q.getD i []).getD (nIdx.getD i 0) 0) := by
  apply List.ext_getElem
  · simp [gatherLastDim, hlen]
  · intro i h1 h2
    have hi : i < nIdx.length := by
      simpa [gatherLastDim, hlen] using h1
    have hq : i < q.length := hlen ▸ hi
    simp only [gatherLastDim, List.getElem_map, List.getElem_zip,
      List.getElem_range, Int.toNat_natCast]
    rw [List.getD_eq_getElem _ _ hq, List.getD_eq_getElem _ _ hi]

/-- C6: `DiscreteQRegression.__call__` casts the action indices to integers
before gathering along the last dimension, the gathered value of sample `i`
is `Q[i][action_index[i]]`, and the loss is
`loss_coeff * loss_class(gathered, returns)`. -/
theorem discreteQ_gather_spec (u : UpdaterState) (m : DQModel)
    (observations returns : List ℚ) (nIdx : List ℕ)
    (hlen : (m.qValues observations).length = nIdx.length) :
    discreteQGathered (m.qValues observations) (nIdx.map fun n : ℕ => (n : ℚ))
      = (List.range nIdx.length).map
          (fun i =>
            ((m.qValues observations).getD i []).getD (nIdx.getD i 0) 0)
    ∧ (discreteQRegressionCall u m observations returns
          (nIdx.map fun n : ℕ => (n : ℚ))).log.loss
      = u.loss_coeff * u.loss_class
          (discreteQGathered (m.qValues observations)
            (nIdx.map fun n : ℕ => (n : ℚ)))
          returns := by
  refine ⟨?_, rfl⟩
  have hmap : ((nIdx.map fun n : ℕ => (n : ℚ)).map toLong)
      = nIdx.map fun n : ℕ => (n : ℤ) := by
    rw [List.map_map]
    apply List.map_congr_left
    intro n _
    exact toLong_natCast n
  rw [discreteQGathered, hmap, gatherLastDim_natIdx _ _ hlen]

/-- A discrete-Q model over a single critic with two actions and two
samples. -/
def dqModelEx : DQModel :=
  ⟨CriticModel.single ⟨[0, 1]⟩, fun _ => [[1, 2], [3, 4]], fun _ => []⟩

/-- A concrete updater configuration with the default MSE loss. -/
def updaterEx : UpdaterState :=
  ⟨0, 1 / 1000, 0, mseLoss, 1⟩

/-- Witness for C6: two samples, action indices `[1, 0]`. -/
theorem discreteQ_gather_spec_witness :
    discreteQGathered (dqModelEx.qValues [5, 6])
        (([1, 0] : List ℕ).map fun n : ℕ => (n : ℚ))
      = (List.range ([1, 0] : List ℕ).length).map
          (fun i =>
            ((dqModelEx.qValues [5, 6]).getD i []).getD
              (([1, 0] : List ℕ).getD i 0) 0)
    ∧ (discreteQRegressionCall updaterEx dqModelEx [5, 6] [2, 3]
          (([1, 0] : List ℕ).map fun n : ℕ => (n : ℚ))).log.loss
      = updaterEx.loss_coeff * updaterEx.loss_class
          (discreteQGathered (dqModelEx.qValues [5, 6])
            (([1, 0] : List ℕ).map fun n : ℕ => (n : ℚ)))
          [2, 3] :=
  discreteQ_gather_spec updaterEx dqModelEx [5, 6] [2, 3] [1, 0] rfl

/-- C8 counterexample: construction with learning rate `-1` and
`max_grad = -5` — both invalid per the claim — succeeds and raises no
configuration error. -/
theorem criticUpdaterInit_accepts_invalid_config :
    criticUpdaterInit 0 (-1) (-5) mseLoss 1
      = Except.ok ⟨0, -1, -5, mseLoss, 1⟩
    ∧ ¬ (0 : ℚ) < -1 ∧ (-5 : ℚ) < 0 :=
  ⟨rfl, by norm_num, by norm_num⟩

/-- C8 amended: construction performs no validation at all — any learning
rate and any `max_grad` are stored verbatim and construction always
succeeds; a non-positive `max_grad` (negative included) merely disables
clipping inside `run_optimizer`. -/
theorem criticUpdaterInit_stores_verbatim (optimizer_class : ℕ)
    (lr max_grad loss_coeff lossGrad : ℚ)
    (loss_class : List ℚ → List ℚ → ℚ) (s : GradState) :
    criticUpdaterInit optimizer_class lr max_grad loss_class loss_coeff
      = Except.ok ⟨optimizer_class, lr, max_grad, loss_class, loss_coeff⟩
    ∧ ((run_optimizer max_grad lr lossGrad s).2.count OptOp.clip
        = if 0 < max_grad then 1 else 0) := by
  refine ⟨rfl, ?_⟩
  simp only [run_optimizer]
  split_ifs <;> rfl

/-- C9: when the checkpoint file derived by appending the fixed suffix does
not exist, `load` returns normally (the `FileNotFoundError` is caught), the
model weights are exactly the pre-call ones, and only informational
messages (none unless verbose) are logged. -/
theorem load_missing_checkpoint (verbose : Bool)
    (fs : String → Except FsError StateDict) (path : String) (m : StateDict)
    (hmissing : fs (path ++ ".pt") = Except.error FsError.fileNotFound) :
    load verbose fs path m
      = Except.ok ⟨m,
          (if verbose then ["Loading weights from " ++ (path ++ ".pt")]
            else [])
          ++ (if verbose then
            ["File not found, assuming no model dict was to be loaded"]
            else [])⟩ := by
  rw [load, hmissing]

/-- A filesystem with no checkpoint files at all. -/
def fsEmpty : String → Except FsError StateDict :=
  fun _ => Except.error FsError.fileNotFound

/-- Witness for C9 at a concrete path and weights. -/
theorem load_missing_checkpoint_witness :
    load true fsEmpty "model" [3, 4]
      = Except.ok ⟨[3, 4],
          (if true then ["Loading weights from " ++ ("model" ++ ".pt")]
            else [])
          ++ (if true then
            ["File not found, assuming no model dict was to be loaded"]
            else [])⟩ :=
  load_missing_checkpoint true fsEmpty "model" [3, 4] rfl

/-- C10: each of the three concrete updater calls builds a fresh optimizer
instance (internal state zero) from the stored `optimizer_class` and `lr`
over the selected parameters, and returns with the updater configuration —
`optimizer_class`, `lr`, `max_grad`, `loss_class`, `loss_coeff` — exactly
as it was: no optimizer or other state survives from one call to the
next. -/
theorem updater_calls_fresh_optimizer_frame (u : UpdaterState) (vm : VModel)
    (cm : CQModel) (dm : DQModel)
    (observations actions returns actions_index : List ℚ) :
    (valueRegressionCall u vm observations returns).updaterAfter = u
    ∧ (valueRegressionCall u vm observations returns).optimizerUsed
        = mkOptimizer u.optimizer_class u.lr
            (get_model_parameters vm.asCritic)
    ∧ (continuousQRegressionCall u cm observations actions
          returns).updaterAfter = u
    ∧ (continuousQRegressionCall u cm observations actions
          returns).optimizerUsed
        = mkOptimizer u.optimizer_class u.lr
            (get_model_parameters cm.asCritic)
    ∧ (discreteQRegressionCall u dm observations returns
          actions_index).updaterAfter = u
    ∧ (discreteQRegressionCall u dm observations returns
          actions_index).optimizerUsed
        = mkOptimizer u.optimizer_class u.lr
            (get_model_parameters dm.asCritic)
    ∧ (mkOptimizer u.optimizer_class u.lr
        (get_model_parameters vm.asCritic)).momentum = 0 :=
  ⟨rfl, rfl, rfl, rfl, rfl, rfl, rfl⟩

end Pearll
